import Mathlib

set_option maxRecDepth 100000

/-!
Verification of `src/generate_report.py` (TRX → HTML test-report generator).

The Python source is shallowly embedded: machine floats are modelled by `ℚ`
(the claims under scrutiny concern exact small decimal values, orderings and
zero tests, which agree between binary floats and rationals on the inputs
involved), XML attribute access is modelled by `Option String`, and fallible
library calls (`int`, `float`, `datetime.strptime`) are modelled by
`Option`-returning parsers over `List Char`.
-/

namespace TrxReport

/-! ## Counters block and overall stats (source lines 280-285, 363-364, 415) -/

/-- Model of `pass_rate = (passed / total_tests * 100) if total_tests else 0.0`
(source line 363).  The counters are `int(...)` values, hence `ℤ`; the float
result is modelled by `ℚ`. -/
def pass_rate (passed total : ℤ) : ℚ :=
  if total ≠ 0 then (passed : ℚ) / (total : ℚ) * 100 else 0

/-- Model of `all_passed = (failed + errors) == 0` (source line 364). -/
def all_passed (failed errors : ℤ) : Bool :=
  failed + errors == 0

/-- Colour constant `C_GREEN_BG` (source line 407). -/
def C_GREEN_BG : String := "#2e7d32"

/-- Colour constant `C_RED_BG` (source line 410). -/
def C_RED_BG : String := "#c62828"

/-- Model of `summary_bg = C_GREEN_BG if all_passed else C_RED_BG`
(source line 415).  Note the code consults only `failed` and `errors`;
the `notExecuted`/skipped counter plays no part. -/
def summary_bg (failed errors : ℤ) : String :=
  if all_passed failed errors then C_GREEN_BG else C_RED_BG

/-- The success condition stated by the spec (all non-Passed counters zero),
written from the spec's words for comparison with the code's `all_passed`. -/
def spec_success (failed errors skipped : ℤ) : Prop :=
  failed = 0 ∧ errors = 0 ∧ skipped = 0

/-! ## Outcome attribute (source line 319) -/

/-- Model of `outcome = r.get("outcome", "Unknown")` (source line 319):
the attribute's value is kept verbatim when present, `"Unknown"` is used
only when the attribute is absent. -/
def outcomeOf (attr : Option String) : String :=
  attr.getD "Unknown"

/-! ## Command-line paths (source lines 17-22) -/

/-- Default input path (source line 21). -/
def TRX_PATH_DEFAULT : String := "/home/kolev95/examtest1/TestIT.ApiTests/results.trx"

/-- Default output path (source line 22). -/
def HTML_PATH_DEFAULT : String := "/home/kolev95/examtest1/TestIT.ApiTests/test-report.html"

/-- Model of the path selection (source lines 17-22): `sys.argv` (including
the program name at index 0) selects `argv[1]`/`argv[2]` only when
`len(sys.argv) >= 3`; otherwise both built-in defaults are used. -/
def resolvePaths (argv : List String) : String × String :=
  if 3 ≤ argv.length then (argv.getD 1 "", argv.getD 2 "")
  else (TRX_PATH_DEFAULT, HTML_PATH_DEFAULT)

end TrxReport

namespace TrxReport

/-! ## Decimal rendering of numbers (models Python `str`/format of ints) -/

/-- Fuel-based decimal digit accumulation; `fuel = n + 1` always suffices. -/
def natDigsGo : Nat → Nat → List Char → List Char
  | 0, _, acc => acc
  | fuel + 1, n, acc =>
    let d := Nat.digitChar (n % 10)
    if n < 10 then d :: acc else natDigsGo fuel (n / 10) (d :: acc)

/-- Decimal rendering of a natural number (model of Python `f"{n}"`). -/
def natReprS (n : Nat) : String := ⟨natDigsGo (n + 1) n []⟩

/-- Zero-padding to a minimum width (model of Python `f"{n:0wd}"`). -/
def padNat (w : Nat) (n : Nat) : String :=
  ⟨List.replicate (w - (natReprS n).length) '0' ++ (natReprS n).data⟩

/-! ## Duration formatting (source lines 36-49) -/

/-- Floor of a rational (Python `//` on floats floors; `int()` of the
integral result is the same number). -/
def floorQ (q : ℚ) : ℤ := Int.fdiv q.num (q.den : ℤ)

/-- Round to the nearest integer, ties to even — the rounding used by
Python's fixed-point float formatting. -/
def roundHalfEven (x : ℚ) : ℤ :=
  let f := floorQ x
  let r := x - (f : ℚ)
  if (1 : ℚ) / 2 < r then f + 1
  else if r < (1 : ℚ) / 2 then f
  else if f % 2 = 0 then f else f + 1

/-- Model of Python `f"{q:0w.2f}"`: fixed-point with two decimals, the
integer part zero-padded to a minimum width (`w = 1` means no padding). -/
def fmtRat2 (q : ℚ) (w : Nat) : String :=
  let v := roundHalfEven (q * 100)
  let n := v.natAbs
  let core := padNat w (n / 100) ++ "." ++ padNat 2 (n % 100)
  if v < 0 then "-" ++ core else core

/-- Model of `fmt_dur` (source lines 36-49): seconds below 60 render as
`"{x:.2f}s"`, between 60 and 3600 as `"{m}m {s:05.2f}s"`, and from 3600 up
as `"{h}h {m:02d}m {s:05.2f}s"`. -/
def fmt_dur (seconds : ℚ) : String :=
  if 3600 ≤ seconds then
    let h := (floorQ (seconds / 3600)).toNat
    let remainder := seconds - (h : ℚ) * 3600
    let m := (floorQ (remainder / 60)).toNat
    let s := remainder - (m : ℚ) * 60
    natReprS h ++ "h " ++ padNat 2 m ++ "m " ++ fmtRat2 s 2 ++ "s"
  else if 60 ≤ seconds then
    let m := (floorQ (seconds / 60)).toNat
    let s := seconds - (m : ℚ) * 60
    natReprS m ++ "m " ++ fmtRat2 s 2 ++ "s"
  else fmtRat2 seconds 1 ++ "s"

/-! ## Duration parsing (source lines 29-34) -/

/-- Decimal digit value of a character, when it is a digit. -/
def dig (c : Char) : Option ℕ :=
  if c.isDigit then some (c.toNat - 48) else none

/-- Surrounding-whitespace stripping, as `int()`/`float()` do. -/
def stripWs (l : List Char) : List Char :=
  ((l.dropWhile Char.isWhitespace).reverse.dropWhile Char.isWhitespace).reverse

/-- Whether a character list starts with a decimal digit. -/
def headIsDigit : List Char → Bool
  | c :: _ => c.isDigit
  | [] => false

/-- Digit-group scanner: digits with single underscores strictly between
digits (CPython numeric-literal `digitpart`); accumulates the value and the
digit count, returning the unconsumed rest, or fails on a misplaced
underscore. -/
def dpGo : ℕ → ℕ → List Char → Option (ℕ × ℕ × List Char)
  | acc, cnt, [] => some (acc, cnt, [])
  | acc, cnt, c :: rest =>
    if c.isDigit then dpGo (10 * acc + (c.toNat - 48)) (cnt + 1) rest
    else if c = '_' then
      match rest with
      | d :: rest2 =>
        if d.isDigit then dpGo (10 * acc + (d.toNat - 48)) (cnt + 1) rest2 else none
      | [] => none
    else some (acc, cnt, c :: rest)

/-- A `digitpart`: at least one digit, underscores between digits. -/
def digitPart (l : List Char) : Option (ℕ × ℕ × List Char) :=
  match l with
  | c :: rest => if c.isDigit then dpGo (c.toNat - 48) 1 rest else none
  | [] => none

/-- Unsigned decimal integer (the digits of Python `int(...)`). -/
def parseUintPy (l : List Char) : Option ℕ :=
  match digitPart l with
  | some (v, _, []) => some v
  | _ => none

/-- Model of Python `int(str)` in base 10: surrounding whitespace, an
optional sign, then a digit group (underscores between digits allowed). -/
def parseIntPy (l : List Char) : Option ℤ :=
  match stripWs l with
  | '-' :: rest => (parseUintPy rest).map (fun n => -(Int.ofNat n))
  | '+' :: rest => (parseUintPy rest).map Int.ofNat
  | t => (parseUintPy t).map Int.ofNat

/-- The values of Python floats relevant here: a (finite) number, NaN, or a
signed infinity.  Finite magnitudes are carried exactly in `ℚ` (Python would
round to the nearest double and overflow huge exponents to `inf`; neither
affects sign or the claims under study). -/
inductive PyFloat where
  | num (q : ℚ)
  | nan
  | inf (neg : Bool)
deriving DecidableEq

/-- Negation of a float value (`-nan` is still NaN). -/
def PyFloat.neg : PyFloat → PyFloat
  | PyFloat.num q => PyFloat.num (-q)
  | PyFloat.nan => PyFloat.nan
  | PyFloat.inf b => PyFloat.inf (!b)

/-- Strict negativity of a float value: NaN compares negative with nothing,
`-inf` and negative numbers are negative. -/
def PyFloat.IsNeg : PyFloat → Prop
  | PyFloat.num q => q < 0
  | PyFloat.nan => False
  | PyFloat.inf b => b = true

/-- Exponent digits: a digit group consuming the whole rest. -/
def expDigits (l : List Char) : Option ℕ :=
  match digitPart l with
  | some (ev, _, []) => some ev
  | _ => none

/-- The scale named by an exponent suffix `[+-]?digitpart`. -/
def parseExpVal : List Char → Option ℚ
  | '+' :: r3 => (expDigits r3).map (fun ev => (10 : ℚ) ^ ev)
  | '-' :: r3 => (expDigits r3).map (fun ev => 1 / (10 : ℚ) ^ ev)
  | r3 => (expDigits r3).map (fun ev => (10 : ℚ) ^ ev)

/-- After the mantissa: either the end of the string or an `e`/`E` exponent
consuming everything that remains. -/
def parseExpTail (man : ℚ) (r : List Char) : Option PyFloat :=
  match r with
  | [] => some (PyFloat.num man)
  | e :: r2 =>
    if e = 'e' ∨ e = 'E' then
      match parseExpVal r2 with
      | some sc => some (PyFloat.num (man * sc))
      | none => none
    else none

/-- After the optional integer part (`ic` digits of value `ip`): an optional
fraction, then the exponent tail; at least one mantissa digit is required. -/
def parseAfterInt (ip ic : ℕ) (r : List Char) : Option PyFloat :=
  match r with
  | '.' :: r2 =>
    if headIsDigit r2 then
      match digitPart r2 with
      | some (fv, fc, r3) => parseExpTail ((ip : ℚ) + (fv : ℚ) / (10 : ℚ) ^ fc) r3
      | none => none
    else if ic = 0 then none
    else parseExpTail ((ip : ℚ)) r2
  | _ =>
    if ic = 0 then none
    else parseExpTail ((ip : ℚ)) r

/-- An unsigned decimal float literal `digitpart? [. digitpart?] [e...]`. -/
def parseDecExp (l : List Char) : Option PyFloat :=
  if headIsDigit l then
    match digitPart l with
    | some (ip, ic, r) => parseAfterInt ip ic r
    | none => none
  else parseAfterInt 0 0 l

/-- An unsigned Python float: `nan`, `inf`/`infinity` (case-insensitive), or
a decimal literal. -/
def parseUnsignedFloat (l : List Char) : Option PyFloat :=
  if l.map Char.toLower = "nan".data then some PyFloat.nan
  else if l.map Char.toLower = "inf".data ∨ l.map Char.toLower = "infinity".data then
    some (PyFloat.inf false)
  else parseDecExp l

/-- Model of Python `float(str)`: strip whitespace, optional sign, then an
unsigned float (including `nan` and `inf`). -/
def parsePyFloat (l : List Char) : Option PyFloat :=
  match stripWs l with
  | '-' :: rest => (parseUnsignedFloat rest).map PyFloat.neg
  | '+' :: rest => parseUnsignedFloat rest
  | t => parseUnsignedFloat t

/-- IEEE addition of a finite number to a float value
(`finite + NaN = NaN`, `finite + ±inf = ±inf`). -/
def addIntPF (q : ℚ) : PyFloat → PyFloat
  | PyFloat.num r => PyFloat.num (q + r)
  | PyFloat.nan => PyFloat.nan
  | PyFloat.inf b => PyFloat.inf b

/-- Model of `str.split(":")`. -/
def splitCols : List Char → List (List Char)
  | [] => [[]]
  | c :: rest =>
    if c = ':' then [] :: splitCols rest
    else
      match splitCols rest with
      | p :: ps => (c :: p) :: ps
      | [] => [[c]]

/-- Model of `parse_duration` (source lines 29-34): split on `":"`, parse
`parts[0]`/`parts[1]` with `int` and `parts[2]` with `float` (extra parts are
ignored, fewer than three parts is an error), and combine as
`h*3600 + m*60 + s`. -/
def parse_duration (s : String) : Option PyFloat :=
  match splitCols s.data with
  | p0 :: p1 :: p2 :: _ =>
    match parseIntPy p0, parseIntPy p1, parsePyFloat p2 with
    | some h, some m, some sec => some (addIntPF ((h : ℚ) * 3600 + (m : ℚ) * 60) sec)
    | _, _, _ => none
  | _ => none

/-! ## Timestamp parsing (source lines 51-63) -/

/-- Offset-colon normalization (source lines 54-55): when the string ends in
`[+-]dd:dd`, the colon is removed (`s = s[:-3] + s[-2:]`). -/
def fixTz (l : List Char) : List Char :=
  match l.reverse with
  | d2 :: d1 :: ':' :: d0 :: dm :: sgn :: rest =>
    if (sgn == '+' || sgn == '-') && d2.isDigit && d1.isDigit && d0.isDigit && dm.isDigit then
      rest.reverse ++ [sgn, dm, d0, d1, d2]
    else l
  | _ => l

/-- The trailing part of the truncation regexp (source line 59):
digits followed by a sign and exactly four digits at the end of the string;
returns the five offset characters. -/
def offTail (rest : List Char) : Option (List Char) :=
  if 5 ≤ rest.length then
    if (rest.take (rest.length - 5)).all Char.isDigit then
      match rest.drop (rest.length - 5) with
      | [sgn, a, b, c, d] =>
        if (sgn == '+' || sgn == '-') && a.isDigit && b.isDigit && c.isDigit && d.isDigit then
          some [sgn, a, b, c, d]
        else none
      | _ => none
    else none
  else none

/-- After a candidate dot: six digits, then the tail pattern; returns the
replacement suffix (six fractional digits, then the offset). -/
def matchAfterDot (post : List Char) : Option (List Char) :=
  match post with
  | f1 :: f2 :: f3 :: f4 :: f5 :: f6 :: rest =>
    if f1.isDigit && f2.isDigit && f3.isDigit && f4.isDigit && f5.isDigit && f6.isDigit then
      match offTail rest with
      | some off => some ([f1, f2, f3, f4, f5, f6] ++ off)
      | none => none
    else none
  | _ => none

/-- Rightmost-dot search implementing the greedy regexp match of source
line 59: the rightmost dot whose tail matches wins. -/
def findTrunc : List Char → Option (List Char)
  | [] => none
  | c :: rest =>
    match findTrunc rest with
    | some r => some (c :: r)
    | none =>
      if c = '.' then
        match matchAfterDot rest with
        | some suf => some (c :: suf)
        | none => none
      else none

/-- Fractional-digits truncation (source lines 57-61): when the greedy
pattern matches, the string is replaced by group(1)+group(2) — the fraction
cut to six digits; the leading `.+` of the regexp requires at least one
character before the dot, so the dot is searched from position one on. -/
def truncFrac (l : List Char) : List Char :=
  match l with
  | [] => l
  | c :: rest =>
    match findTrunc rest with
    | some r => c :: r
    | none => l

/-- Two-digit number from two digit characters. -/
def num2 (a b : Char) : Option ℕ :=
  match dig a, dig b with
  | some x, some y => some (10 * x + y)
  | _, _ => none

/-- Four-digit number from four digit characters. -/
def num4 (a b c d : Char) : Option ℕ :=
  match num2 a b, num2 c d with
  | some x, some y => some (100 * x + y)
  | _, _ => none

/-- Consume up to `fuel` leading digit characters. -/
def takeDigs : Nat → List Char → (List ℕ × List Char)
  | 0, l => ([], l)
  | _ + 1, [] => ([], [])
  | fuel + 1, c :: rest =>
    match dig c with
    | some d =>
      let p := takeDigs fuel rest
      (d :: p.1, p.2)
    | none => ([], c :: rest)

/-- The `%f` field of `strptime`: one to six fractional digit characters,
scaled to microseconds (right-padded with zeros as CPython does). -/
def parseFrac (l : List Char) : Option (ℕ × List Char) :=
  match l with
  | c :: rest =>
    match dig c with
    | some d =>
      let p := takeDigs 5 rest
      some (((d :: p.1).foldl (fun a x => 10 * a + x) 0) * 10 ^ (6 - (d :: p.1).length), p.2)
    | none => none
  | [] => none

/-- The `%z` field of `strptime`: `Z`, or a sign, two hour digits and an
optional (possibly colon-separated) two minute digits; the result is the
offset in minutes east of UTC. -/
def parseTz (l : List Char) : Option ℤ :=
  match l with
  | ['Z'] => some 0
  | sgn :: a :: b :: rest =>
    if (sgn == '+' || sgn == '-') && a.isDigit && b.isDigit then
      match rest with
      | [] => some ((if sgn == '-' then (-1 : ℤ) else 1) *
          (((a.toNat - 48) * 10 + (b.toNat - 48)) * 60))
      | [c, d] =>
        if c.isDigit && d.isDigit then
          some ((if sgn == '-' then (-1 : ℤ) else 1) *
            (((a.toNat - 48) * 10 + (b.toNat - 48)) * 60 +
              ((c.toNat - 48) * 10 + (d.toNat - 48))))
        else none
      | [':', c, d] =>
        if c.isDigit && d.isDigit then
          some ((if sgn == '-' then (-1 : ℤ) else 1) *
            (((a.toNat - 48) * 10 + (b.toNat - 48)) * 60 +
              ((c.toNat - 48) * 10 + (d.toNat - 48))))
        else none
      | _ => none
    else none
  | _ => none

/-- Gregorian leap-year test. -/
def isLeap (y : ℕ) : Bool := (y % 4 == 0 && y % 100 != 0) || y % 400 == 0

/-- Days in a month (used by `datetime`'s day-of-month validation). -/
def daysInMonth (y mo : ℕ) : ℕ :=
  if mo = 2 then (if isLeap y then 29 else 28)
  else if mo = 4 ∨ mo = 6 ∨ mo = 9 ∨ mo = 11 then 30
  else 31

/-- Days since 1970-01-01 of a civil date (standard era-based algorithm). -/
def epochDays (y mo dy : ℕ) : ℤ :=
  let y2 : ℤ := if mo ≤ 2 then (y : ℤ) - 1 else (y : ℤ)
  let era : ℤ := Int.fdiv y2 400
  let yoe : ℤ := y2 - era * 400
  let mp : ℤ := if 2 < mo then (mo : ℤ) - 3 else (mo : ℤ) + 9
  let doy : ℤ := Int.fdiv (153 * mp + 2) 5 + (dy : ℤ) - 1
  let doe : ℤ := yoe * 365 + Int.fdiv yoe 4 - Int.fdiv yoe 100 + doy
  era * 146097 + doe - 719468

/-- Model of `datetime.strptime(s, "%Y-%m-%dT%H:%M:%S.%f%z")` followed by
conversion to an absolute instant (microseconds since the Unix epoch),
modelled for the zero-padded field widths TRX emits; the format string makes
the dot and at least one fractional digit mandatory, exactly as CPython's
`%f` does. -/
def strptimeModel (l : List Char) : Option ℤ :=
  match l with
  | y1 :: y2c :: y3 :: y4 :: '-' :: o1 :: o2 :: '-' :: d1 :: d2 :: 'T' ::
      h1 :: h2 :: ':' :: i1 :: i2 :: ':' :: s1 :: s2 :: '.' :: rest =>
    match parseFrac rest with
    | none => none
    | some (frac, rest2) =>
      match parseTz rest2 with
      | none => none
      | some off =>
        match num4 y1 y2c y3 y4, num2 o1 o2, num2 d1 d2,
            num2 h1 h2, num2 i1 i2, num2 s1 s2 with
        | some y, some mo, some dy, some hh, some mi, some ss =>
          if 1 ≤ mo ∧ mo ≤ 12 ∧ 1 ≤ dy ∧ dy ≤ daysInMonth y mo ∧
              hh ≤ 23 ∧ mi ≤ 59 ∧ ss ≤ 59 then
            some ((epochDays y mo dy * 86400
                + ((hh : ℤ) * 3600 + (mi : ℤ) * 60 + (ss : ℤ))) * 1000000
              + (frac : ℤ) - off * 60000000)
          else none
        | _, _, _, _, _, _ => none
  | _ => none

/-- Model of `parse_iso_datetime` (source lines 51-63): normalize the offset
colon, truncate excess fractional digits, then parse with the fixed format. -/
def parse_iso_datetime (s : String) : Option ℤ :=
  strptimeModel (truncFrac (fixTz s.data))

/-- Adjacency relation: a dot is never immediately followed by a digit
(i.e. the string has no fractional-seconds part anywhere). -/
def NoDotDigit (a b : Char) : Prop := a ≠ '.' ∨ b.isDigit = false

instance instDecNoDotDigit (a b : Char) : Decidable (NoDotDigit a b) :=
  inferInstanceAs (Decidable (a ≠ '.' ∨ b.isDigit = false))

/-- Boolean form of the adjacency check, for concrete evaluation. -/
def noDotDigitB : List Char → Bool
  | a :: b :: rest => decide (NoDotDigit a b) && noDotDigitB (b :: rest)
  | _ => true

/-! ## Test records and grouping by class (source lines 288-360) -/

/-- Model of the `Test` record (source lines 288-303): the derived
`class_name`/`method_name` fields are defined below from `full_name`. -/
structure Test where
  full_name : String
  outcome : String
  duration_sec : ℚ
  description : String
  stdout : String

/-- Model of `method_name` (source lines 297-303): the part of `full_name`
after the last `"."`, or the whole name when there is no dot. -/
def method_name (t : Test) : String :=
  ⟨((t.full_name.data.reverse).takeWhile (fun c => c != '.')).reverse⟩

/-- Model of `class_name` (source lines 297-303): the part of `full_name`
before the last `"."`, or `""` when there is no dot. -/
def class_name (t : Test) : String :=
  if '.' ∈ t.full_name.data then
    ⟨(((t.full_name.data.reverse).dropWhile (fun c => c != '.')).tail).reverse⟩
  else ""

/-- The fixed category preference list `CLASS_ORDER` (source lines 331-349). -/
def CLASS_ORDER : List String := [
  "TestIT.ApiTests.Tests.AuthenticationTests",
  "TestIT.ApiTests.Tests.TestsManagementTests",
  "TestIT.ApiTests.Tests.QuestionManagementTests",
  "TestIT.ApiTests.Tests.TestTakingTests",
  "TestIT.ApiTests.Tests.CompanyTests",
  "TestIT.ApiTests.Tests.InviteTests",
  "TestIT.ApiTests.Tests.FolderTests",
  "TestIT.ApiTests.Tests.AnalyticsTests",
  "TestIT.ApiTests.Tests.SecurityTests",
  "TestIT.ApiTests.Tests.DataIntegrityTests",
  "TestIT.ApiTests.Tests.EdgeCaseTests",
  "TestIT.ApiTests.Tests.CoverageTests",
  "TestIT.ApiTests.Tests.PatchTests",
  "TestIT.ApiTests.Tests.PerformanceTests",
  "TestIT.ApiTests.Tests.SchemaValidationTests",
  "TestIT.ApiTests.Tests.StressTests",
  "TestIT.ApiTests.Tests.CleanupTests"]

/-- First-seen deduplication: the key order produced by
`classes.setdefault(t.class_name, []).append(t)` over an `OrderedDict`
(source lines 326-328). -/
def fsKeys : List String → List String
  | [] => []
  | k :: rest => k :: (fsKeys rest).filter (fun x => x != k)

/-- The grouping keys of `classes`, in encounter order (source lines
326-328). -/
def classKeys (ts : List Test) : List String := fsKeys (ts.map class_name)

/-- Model of the reordering into `sorted_classes` (source lines 351-360):
first the `CLASS_ORDER` entries that occur among the keys, in `CLASS_ORDER`'s
order, then the remaining keys in first-seen order. -/
def sortedClassKeys (ts : List Test) : List String :=
  CLASS_ORDER.filter (fun k => decide (k ∈ classKeys ts)) ++
    (classKeys ts).filter (fun k => decide (k ∉ CLASS_ORDER))

/-! ## HTML escaping and the per-class renderer (source lines 375-398, 442-515) -/

/-- Per-character model of Python `html.escape` (quote=True): the five
special characters become entities, everything else is kept. -/
def escapeChar (c : Char) : List Char :=
  if c = '&' then "&amp;".data
  else if c = '<' then "&lt;".data
  else if c = '>' then "&gt;".data
  else if c = '"' then "&quot;".data
  else if c = Char.ofNat 39 then "&#x27;".data
  else [c]

/-- Escape every character of a character list. -/
def escapeHtmlL (l : List Char) : List Char := (l.map escapeChar).flatten

/-- Model of `html.escape` on strings. -/
def escapeHtml (s : String) : String := ⟨escapeHtmlL s.data⟩

/-- Concatenation of a chunk list (the renderer builds its output by
string concatenation). -/
def joinStr (l : List String) : String := l.foldr (fun s r => s ++ r) ""

/-- The stripped class prefix (source line 375). -/
def CLASS_PREFIX : String := "TestIT.ApiTests.Tests."

/-- Prefix test on character lists. -/
def isPre : List Char → List Char → Bool
  | [], _ => true
  | _ :: _, [] => false
  | a :: as, b :: bs => a == b && isPre as bs

/-- Model of `short_class` (source lines 377-378). -/
def short_class (name : String) : String :=
  if isPre CLASS_PREFIX.data name.data then ⟨name.data.drop CLASS_PREFIX.data.length⟩
  else name

/-- Colour constant `C_TEXT_LIGHT` (source line 404). -/
def C_TEXT_LIGHT : String := "#777"

/-- Colour constant `C_BORDER` (source line 405). -/
def C_BORDER : String := "#ddd"

/-- The static class-description table `CLASS_DESCRIPTIONS`
(source lines 381-398), as a key-value list. -/
def CLASS_DESCRIPTIONS_LIST : List (String × String) := [
  ("TestIT.ApiTests.Tests.AuthenticationTests",
   "Registration, login, token refresh and profile retrieval — covers the full authentication lifecycle and input-validation edge cases."),
  ("TestIT.ApiTests.Tests.TestsManagementTests",
   "CRUD operations on quizzes: create, list, fetch by slug, update, delete and add questions — plus auth-enforcement checks."),
  ("TestIT.ApiTests.Tests.QuestionManagementTests",
   "Editing, deleting and reordering questions within a test, including multi-select question creation."),
  ("TestIT.ApiTests.Tests.TestTakingTests",
   "The end-to-end test-taking flow: public and password-protected access, attempt lifecycle, draft saving, scoring and results retrieval."),
  ("TestIT.ApiTests.Tests.CompanyTests",
   "Company CRUD, member listing, company-scoped test listing and creation — plus an unauthenticated-access check."),
  ("TestIT.ApiTests.Tests.InviteTests",
   "Invite lifecycle: creation, duplicate detection, listing and the full accept flow that converts a pending invite into membership."),
  ("TestIT.ApiTests.Tests.FolderTests",
   "Folder CRUD within a company, including nested parent-child folder creation."),
  ("TestIT.ApiTests.Tests.AnalyticsTests",
   "Per-test analytics: empty-state reporting, post-submission stats and access-control enforcement."),
  ("TestIT.ApiTests.Tests.SecurityTests",
   "Input validation, SQL injection prevention, XSS protection, and authentication/authorization enforcement."),
  ("TestIT.ApiTests.Tests.DataIntegrityTests",
   "Scoring accuracy, immutability checks, and data consistency validation."),
  ("TestIT.ApiTests.Tests.EdgeCaseTests",
   "Boundary value testing, malformed input handling, and edge case scenarios."),
  ("TestIT.ApiTests.Tests.CoverageTests",
   "API surface area validation and authorization checks across endpoints."),
  ("TestIT.ApiTests.Tests.PatchTests",
   "PATCH endpoint testing for partial updates and field modifications."),
  ("TestIT.ApiTests.Tests.PerformanceTests",
   "Response latency SLA tests measuring API performance across different operation types."),
  ("TestIT.ApiTests.Tests.SchemaValidationTests",
   "API contract validation ensuring correct field types and absence of sensitive data leaks."),
  ("TestIT.ApiTests.Tests.StressTests",
   "Load testing and concurrency validation under high request volumes.")]

/-- Lookup in the class-description table; a missing entry yields the empty
string (`CLASS_DESCRIPTIONS.get(class_name, "")`, source line 492). -/
def CLASS_DESCRIPTIONS (n : String) : String :=
  match CLASS_DESCRIPTIONS_LIST.find? (fun kv => kv.1 == n) with
  | some kv => kv.2
  | none => ""

/-- Stable insertion into a method-name-sorted list (places the new element
after all elements with a smaller-or-equal key, as Python's stable sort
does). -/
def insertByMethod (t : Test) : List Test → List Test
  | [] => [t]
  | u :: us =>
    if method_name t < method_name u then t :: u :: us
    else u :: insertByMethod t us

/-- Model of `sorted(test_list, key=lambda x: x.method_name)`. -/
def sortTestsByMethod (l : List Test) : List Test :=
  l.foldl (fun acc t => insertByMethod t acc) []

/-- Model of `enumerate(..., start=i)`. -/
def withIdx : Nat → List Test → List (Nat × Test)
  | _, [] => []
  | i, t :: ts => (i, t) :: withIdx (i + 1) ts

/-- The chunks of one rendered test row (source lines 452-480): every
test-derived string (`method_name`, `description`, `outcome`, `stdout`)
passes through `html.escape`; numbers and durations are rendered by the
numeric formatters. -/
def rowChunks (class_index : Nat) (p : Nat × Test) : List String :=
  ["<tr><td style=\"padding:10px 14px 4px;vertical-align:top;\"><div style=\"font-weight:600;\"><span style=\"color:#546e7a;font-size:13px;margin-right:8px;\">",
   natReprS class_index, ".", natReprS p.1,
   "</span>", escapeHtml (method_name p.2), "</div>"]
  ++ (if p.2.description ≠ "" then
      ["<div style=\"font-size:13px;color:#666;margin-top:3px;\">",
       escapeHtml p.2.description, "</div>"]
    else [])
  ++ ["</td><td style=\"padding:10px 14px 4px;vertical-align:top;font-weight:600;color:",
      (if p.2.outcome = "Passed" then C_GREEN_BG else C_RED_BG),
      ";white-space:nowrap;\">", escapeHtml p.2.outcome,
      "</td><td style=\"padding:10px 14px 4px;vertical-align:top;text-align:right;color:#555;white-space:nowrap;\">",
      fmt_dur p.2.duration_sec, "</td></tr>\n"]
  ++ (if p.2.stdout ≠ "" then
      ["<tr><td colspan=\"3\" style=\"padding:0 14px 10px;\"><details><summary style=\"cursor:pointer;font-size:12px;color:#1565c0;font-weight:600;margin-top:4px;\">&#9654; Execution Log</summary><pre style=\"margin:6px 0 0;padding:10px 14px;background:#f4f6f8;border:1px solid #dde1e6;border-radius:4px;font-size:11.5px;color:#37474f;line-height:1.8;overflow-x:auto;white-space:pre-wrap;\">",
       escapeHtml p.2.stdout, "</pre></details></td></tr>"]
    else [])

/-- The chunks of one rendered per-class section (source lines 442-515):
the collapsible header (escaped short class name, pass counts, duration),
the optional static class description, the table head, the rows, and the
closing tags. -/
def classTableChunks (class_index : Nat) (cname : String) (test_list : List Test) :
    List String :=
  ["<details style=\"margin-bottom:10px;border:1px solid ", C_BORDER,
   ";border-radius:6px;overflow:hidden;\">\n<summary style=\"cursor:pointer;background:#f5f5f5;padding:12px 16px;font-weight:600;font-size:15px;display:flex;justify-content:space-between;align-items:center;list-style:none;-webkit-appearance:none;\">\n  <span>&#9654; <span style=\"color:#546e7a;\">",
   natReprS class_index, ".</span> ", escapeHtml (short_class cname),
   "</span>\n  <span style=\"font-weight:400;color:", C_TEXT_LIGHT, ";font-size:13px;\">",
   natReprS (test_list.filter (fun t => decide (t.outcome = "Passed"))).length,
   "/", natReprS test_list.length, " &nbsp;|&nbsp; ",
   fmt_dur (test_list.foldl (fun a t => a + t.duration_sec) 0),
   "</span>\n</summary>\n"]
  ++ (if CLASS_DESCRIPTIONS cname ≠ "" then
      ["<div style=\"padding:10px 16px 4px;background:#fff;border-bottom:1px solid #eee;\">\n  <p style=\"margin:0;font-size:13px;color:#555;font-style:italic;\">",
       CLASS_DESCRIPTIONS cname, "</p>\n</div>\n"]
    else [])
  ++ ["<table style=\"width:100%;border-collapse:collapse;\">\n<thead><tr style=\"background:#fafafa;border-bottom:2px solid #e8e8e8;\">\n  <th style=\"padding:8px 14px;text-align:left;font-size:12px;color:#888;font-weight:600;text-transform:uppercase;letter-spacing:.5px;\">Test</th>\n  <th style=\"padding:8px 14px;text-align:left;font-size:12px;color:#888;font-weight:600;text-transform:uppercase;letter-spacing:.5px;\">Result</th>\n  <th style=\"padding:8px 14px;text-align:right;font-size:12px;color:#888;font-weight:600;text-transform:uppercase;letter-spacing:.5px;\">Duration</th>\n</tr></thead>\n<tbody>\n"]
  ++ ((withIdx 1 (sortTestsByMethod test_list)).map (rowChunks class_index)).flatten
  ++ ["</tbody>\n</table>\n</details>\n"]

/-- Model of `class_table` (source lines 442-515): the concatenation of the
section's chunks. -/
def class_table (class_index : Nat) (cname : String) (test_list : List Test) : String :=
  joinStr (classTableChunks class_index cname test_list)

/-! ## The full document renderer (source lines 400-413, 519-529, 533-626) -/

/-- Colour constant `C_BG` (source line 401). -/
def C_BG : String := "#eef0f3"

/-- Colour constant `C_WHITE` (source line 402). -/
def C_WHITE : String := "#ffffff"

/-- Colour constant `C_TEXT` (source line 403). -/
def C_TEXT : String := "#333"

/-- Colour constant `C_HEADER_BG` (source line 406). -/
def C_HEADER_BG : String := "#1a237e"

/-- Colour constant `C_GREEN_TEXT` (source line 409). -/
def C_GREEN_TEXT : String := "#1e8449"

/-- Colour constant `C_RED_TEXT` (source line 412). -/
def C_RED_TEXT : String := "#c0392b"

/-- Colour constant `C_ACCENT` (source line 413). -/
def C_ACCENT : String := "#1565c0"

/-- A wall-clock datetime as the header renders it: the six components
displayed by `strftime("%Y-%m-%d %H:%M:%S")` (source line 556). -/
structure TimeSix where
  year : ℕ
  month : ℕ
  day : ℕ
  hour : ℕ
  minute : ℕ
  second : ℕ

/-- Model of `strftime("%Y-%m-%d %H:%M:%S")` on a datetime with the given
components (source line 556): zero-padded fields joined by the fixed
separators. -/
def fmtTimeHdr (t : TimeSix) : String :=
  padNat 4 t.year ++ "-" ++ padNat 2 t.month ++ "-" ++ padNat 2 t.day ++ " " ++
    padNat 2 t.hour ++ ":" ++ padNat 2 t.minute ++ ":" ++ padNat 2 t.second

/-- Decimal rendering of a Python integer (sign, then digits). -/
def intReprS (i : ℤ) : String :=
  if i < 0 then "-" ++ natReprS i.natAbs else natReprS i.natAbs

/-- Model of Python `f"{q:.0f}"`: fixed-point with zero decimals
(round half to even). -/
def fmtRat0 (q : ℚ) : String :=
  let v := roundHalfEven q
  if v < 0 then "-" ++ natReprS v.natAbs else natReprS v.natAbs

/-- Model of `max(tests, key=lambda t: t.duration_sec) if tests else None`
(source line 366): Python `max` keeps the first of several maxima, replacing
the candidate only on a strictly larger key. -/
def maxByDur : List Test → Option Test
  | [] => none
  | t :: ts => some (ts.foldl (fun acc u =>
      if acc.duration_sec < u.duration_sec then u else acc) t)

/-- Model of `min(tests, key=lambda t: t.duration_sec) if tests else None`
(source line 367): Python `min` keeps the first of several minima, replacing
the candidate only on a strictly smaller key. -/
def minByDur : List Test → Option Test
  | [] => none
  | t :: ts => some (ts.foldl (fun acc u =>
      if u.duration_sec < acc.duration_sec then u else acc) t)

/-- Model of `avg_dur` (source line 368): the mean duration, `0.0` for an
empty test list. -/
def avgDur (tests : List Test) : ℚ :=
  if tests.isEmpty then 0
  else (tests.foldl (fun a t => a + t.duration_sec) 0) / (tests.length : ℚ)

/-- The group `classes[k]` (source lines 326-328): the tests whose class
name is `k`, in encounter order. -/
def groupOf (ts : List Test) (k : String) : List Test :=
  ts.filter (fun t => class_name t == k)

/-- Model of `enumerate(classes.items(), start=i)` over the key list. -/
def withIdxS : Nat → List String → List (Nat × String)
  | _, [] => []
  | i, k :: ks => (i, k) :: withIdxS (i + 1) ks

/-- The chunks of one stat card (source lines 519-529): the fixed template,
the caller-supplied label, value and accent colour, and the optional `sub`
line emitted only when `sub` is non-empty. -/
def statCardChunks (label value sub accent : String) : List String :=
  ["<div style=\"background:", C_WHITE, ";border:1px solid ", C_BORDER,
   ";border-radius:10px;padding:18px 20px;flex:1 1 140px;max-width:240px;text-align:center;box-shadow:0 1px 3px rgba(0,0,0,0.06);\">\n  <div style=\"font-size:11px;text-transform:uppercase;letter-spacing:1px;color:",
   C_TEXT_LIGHT, ";margin-bottom:6px;\">", label,
   "</div>\n  <div style=\"font-size:26px;font-weight:700;color:", accent, ";\">",
   value, "</div>\n"]
  ++ (if sub ≠ "" then
      ["  <div style=\"font-size:12px;color:", C_TEXT_LIGHT, ";margin-top:4px;\">",
       sub, "</div>\n"]
    else [])
  ++ ["</div>\n"]

/-- Model of `stat_card` (source lines 519-529): the concatenation of the
card chunks. -/
def stat_card (label value sub accent : String) : String :=
  joinStr (statCardChunks label value sub accent)

/-- The chunks of the full rendered document `html_doc` (source lines
533-626), in order: the fixed template text interleaved with the
interpolated colours, header times, summary numbers, the joined per-class
sections, the three stat cards and the footer.  Literal braces of the
`<style>` block (doubled braces in the source f-string) are written with
character escapes. -/
def htmlDocChunks (run_start run_finish : TimeSix) (run_duration_sec : ℚ)
    (total_tests passed failed errors : ℤ) (tests : List Test) : List String :=
  ["<!DOCTYPE html>\n<html lang=\"en\">\n<head>\n<meta charset=\"utf-8\" />\n<meta name=\"viewport\" content=\"width=device-width, initial-scale=1\" />\n<title>TestIT API Tests &#8212; Test Report</title>\n<style>\n  /* reset details/summary arrow across browsers */\n  details > summary::-webkit-details-marker \x7b display:none; \x7d\n  details > summary \x7b list-style:none; \x7d\n  details[open] > summary > span:first-child \x7b \x7d\n</style>\n</head>\n<body style=\"margin:0;padding:0;background:",
   C_BG,
   ";font-family:\x27Segoe UI\x27,system-ui,Arial,sans-serif;color:",
   C_TEXT,
   ";\">\n\n<!-- ============================================================\n     HEADER (DARK BLUE)\n     ============================================================ -->\n<div style=\"background:",
   C_HEADER_BG,
   ";color:#fff;padding:26px 40px 22px;\">\n  <h1 style=\"margin:0 0 6px;font-size:22px;font-weight:600;letter-spacing:.3px;\">\n    TestIT API Tests &#8212; Test Report\n  </h1>\n  <p style=\"margin:0;font-size:13px;opacity:.7;\">\n    Started: ",
   fmtTimeHdr run_start,
   " &nbsp;|&nbsp; Finished: ",
   fmtTimeHdr run_finish,
   "\n  </p>\n</div>\n\n<!-- ============================================================\n     SUMMARY BAR (GREEN/RED)\n     ============================================================ -->\n<div style=\"background:",
   summary_bg failed errors,
   ";color:#fff;padding:18px 40px;display:flex;gap:52px;flex-wrap:wrap;align-items:center;\">\n  <div style=\"text-align:center;\">\n    <div style=\"font-size:38px;font-weight:700;line-height:1;\">",
   intReprS passed, "/", intReprS total_tests,
   "</div>\n    <div style=\"font-size:12px;opacity:.85;margin-top:2px;text-transform:uppercase;letter-spacing:.8px;\">Tests Passed</div>\n  </div>\n  <div style=\"text-align:center;\">\n    <div style=\"font-size:38px;font-weight:700;line-height:1;\">",
   fmtRat0 (pass_rate passed total_tests),
   "%</div>\n    <div style=\"font-size:12px;opacity:.85;margin-top:2px;text-transform:uppercase;letter-spacing:.8px;\">Pass Rate</div>\n  </div>\n  <div style=\"text-align:center;\">\n    <div style=\"font-size:38px;font-weight:700;line-height:1;\">",
   fmt_dur run_duration_sec,
   "</div>\n    <div style=\"font-size:12px;opacity:.85;margin-top:2px;text-transform:uppercase;letter-spacing:.8px;\">Total Duration</div>\n  </div>\n  <div style=\"text-align:center;\">\n    <div style=\"font-size:38px;font-weight:700;line-height:1;\">",
   fmt_dur (if 0 < total_tests then run_duration_sec / (total_tests : ℚ) else 0),
   "</div>\n    <div style=\"font-size:12px;opacity:.85;margin-top:2px;text-transform:uppercase;letter-spacing:.8px;\">Avg / Test</div>\n  </div>\n</div>\n\n<!-- ============================================================\n     BODY / PER-CLASS BREAKDOWN\n     ============================================================ -->\n<div style=\"max-width:960px;margin:30px auto;padding:0 20px;\">\n  <h2 style=\"font-size:17px;color:",
   C_HEADER_BG,
   ";margin-bottom:14px;\">\n    Test Classes\n  </h2>\n  ",
   joinStr ((withIdxS 1 (sortedClassKeys tests)).map
     (fun p => class_table p.1 p.2 (groupOf tests p.2))),
   "\n</div>\n\n<!-- ============================================================\n     OVERALL STATS\n     ============================================================ -->\n<div style=\"max-width:960px;margin:32px auto 40px;padding:0 24px;\">\n  <h2 style=\"font-size:18px;font-weight:600;color:",
   C_TEXT,
   ";margin:0 0 16px;\">\n    Overall Stats\n  </h2>\n  <div style=\"display:flex;gap:16px;flex-wrap:wrap;\">\n    ",
   stat_card "Slowest Test"
     (match maxByDur tests with
      | some t => fmt_dur t.duration_sec
      | none => "—")
     (match maxByDur tests with
      | some t => escapeHtml (method_name t)
      | none => "")
     C_RED_TEXT,
   "\n    ",
   stat_card "Fastest Test"
     (match minByDur tests with
      | some t => fmt_dur t.duration_sec
      | none => "—")
     (match minByDur tests with
      | some t => escapeHtml (method_name t)
      | none => "")
     C_GREEN_TEXT,
   "\n    ",
   stat_card "Avg Duration" (fmt_dur (avgDur tests))
     ("across " ++ natReprS tests.length ++ " tests") C_ACCENT,
   "\n  </div>\n</div>\n\n<!-- ============================================================\n     FOOTER\n     ============================================================ -->\n<div style=\"border-top:1px solid ",
   C_BORDER,
   ";padding:16px 0;text-align:center;\">\n  <span style=\"font-size:12px;color:",
   C_TEXT_LIGHT,
   ";\">\n    Report auto-generated &middot; source: results.trx\n  </span>\n</div>\n\n</body>\n</html>\n"]

/-- Model of `html_doc` (source lines 533-626): the concatenation of the
document chunks. -/
def html_doc (run_start run_finish : TimeSix) (run_duration_sec : ℚ)
    (total_tests passed failed errors : ℤ) (tests : List Test) : String :=
  joinStr (htmlDocChunks run_start run_finish run_duration_sec
    total_tests passed failed errors tests)

/-- Scan for an occurrence (as a contiguous substring) of `n` starting
anywhere in the list, or for a suffix that is a non-empty prefix of `n`
(an occurrence "running off the end"). -/
def scanFor (n : List Char) : List Char → Bool
  | [] => false
  | l@(_ :: t) => isPre l n || isPre n l || scanFor n t

/-- Substring occurrence test: `n` occurs contiguously in the list. -/
def occurs (n : List Char) : List Char → Bool
  | [] => isPre n []
  | l@(_ :: t) => isPre n l || occurs n t

/-- Substring occurrence on strings. -/
def containsSub (needle hay : String) : Bool := occurs needle.data hay.data

/-- The injection payload of the claim. -/
def scriptNeedle : List Char := "<script>".data

end TrxReport

namespace TrxReport

/-! ## Claim C1 -/

/-- C2 (counterexample): with `failed = 0`, `errors = 0`, `skipped = 1`
the summary panel is rendered with the success (green) styling even though
not all non-Passed counters are zero: the code never consults the
`notExecuted`/skipped counter. -/
theorem C2_counterexample :
    summary_bg 0 0 = C_GREEN_BG ∧ ¬ spec_success 0 0 1 := by
  constructor
  · rfl
  · intro h
    exact absurd h.2.2 (by norm_num)

/-- C2 (amended): the summary panel uses the success styling exactly when
`failed + errors = 0` — for non-negative counters, exactly when both the
failed and the error counts are zero; the skipped/notExecuted count is not
consulted. -/
theorem C2_summary_amended (failed errors : ℤ)
    (hf : 0 ≤ failed) (he : 0 ≤ errors) :
    summary_bg failed errors = C_GREEN_BG ↔ failed = 0 ∧ errors = 0 := by
  unfold summary_bg all_passed
  constructor
  · intro h
    by_cases hz : failed + errors = 0
    · constructor <;> omega
    · exfalso
      have : (failed + errors == 0) = false := by
        simp [hz]
      rw [this] at h
      simp at h
      exact absurd h (by decide)
  · rintro ⟨h1, h2⟩
    subst h1; subst h2
    rfl

/-- C2 witness: the amended statement at `failed = 0`, `errors = 0`. -/
theorem C2_witness :
    summary_bg 0 0 = C_GREEN_BG ↔ (0 : ℤ) = 0 ∧ (0 : ℤ) = 0 :=
  C2_summary_amended 0 0 (by norm_num) (by norm_num)

/-! ## Claim C3 -/

/-- C3 (counterexample): a result entry whose `outcome` attribute carries the
unrecognized string `"Timeout"` is stored verbatim as `"Timeout"`, not as the
generic `"Unknown"` status. -/
theorem C3_counterexample :
    outcomeOf (some "Timeout") = "Timeout" ∧
      outcomeOf (some "Timeout") ≠ "Unknown" ∧
      "Timeout" ∉ (["Passed", "Failed", "Error", "NotExecuted"] : List String) := by
  refine ⟨rfl, ?_, ?_⟩ <;> decide

/-- C3 (amended): the parser never fails on an outcome attribute: when the
attribute is present its string is stored verbatim (even when unrecognized),
and the generic `"Unknown"` status is stored only when the attribute is
absent. -/
theorem C3_outcome_amended (attr : Option String) :
    (attr = none → outcomeOf attr = "Unknown") ∧
      (∀ s : String, attr = some s → outcomeOf attr = s) := by
  constructor
  · intro h; subst h; rfl
  · intro s h; subst h; rfl

/-- C3 witness: the amended statement at a present unrecognized attribute and
at an absent attribute. -/
theorem C3_witness :
    outcomeOf (some "Timeout") = "Timeout" ∧ outcomeOf none = "Unknown" :=
  ⟨(C3_outcome_amended (some "Timeout")).2 "Timeout" rfl,
   (C3_outcome_amended none).1 rfl⟩

/-! ## Claim C5 -/

/-- C5: the duration formatter renders a non-negative seconds value `x` as
`"{x:.2f}s"` when `x < 60`, as minutes+seconds (`"{m}m {s:05.2f}s"`) when
`60 ≤ x < 3600`, and as hours+minutes+seconds (`"{h}h {m:02d}m {s:05.2f}s"`)
when `x ≥ 3600`; in particular 45.5 renders as `"45.50s"`, 125.3 as
`"2m 05.30s"`, and 3725.0 as `"1h 02m 05.00s"`. -/
theorem C5_fmt_dur_format (x : ℚ) (_hx : 0 ≤ x) :
    (x < 60 → fmt_dur x = fmtRat2 x 1 ++ "s") ∧
    (60 ≤ x → x < 3600 →
      fmt_dur x = natReprS (floorQ (x / 60)).toNat ++ "m " ++
        fmtRat2 (x - ((floorQ (x / 60)).toNat : ℚ) * 60) 2 ++ "s") ∧
    (3600 ≤ x →
      fmt_dur x = natReprS (floorQ (x / 3600)).toNat ++ "h " ++
        padNat 2 (floorQ ((x - ((floorQ (x / 3600)).toNat : ℚ) * 3600) / 60)).toNat ++ "m " ++
        fmtRat2 ((x - ((floorQ (x / 3600)).toNat : ℚ) * 3600) -
          ((floorQ ((x - ((floorQ (x / 3600)).toNat : ℚ) * 3600) / 60)).toNat : ℚ) * 60) 2
          ++ "s") ∧
    fmt_dur (91 / 2 : ℚ) = "45.50s" ∧
    fmt_dur (1253 / 10 : ℚ) = "2m 05.30s" ∧
    fmt_dur (3725 : ℚ) = "1h 02m 05.00s" := by
  refine ⟨?_, ?_, ?_, ?_, ?_, ?_⟩
  · intro h
    unfold fmt_dur
    rw [if_neg (by linarith), if_neg (by linarith)]
  · intro h1 h2
    unfold fmt_dur
    rw [if_neg (by linarith), if_pos h1]
  · intro h
    unfold fmt_dur
    rw [if_pos h]
  · with_unfolding_all decide
  · with_unfolding_all decide
  · with_unfolding_all decide

/-- C5 witness: the formatter at the concrete input 45.5. -/
theorem C5_witness :
    0 ≤ (91 / 2 : ℚ) ∧ fmt_dur (91 / 2 : ℚ) = "45.50s" :=
  ⟨by norm_num, (C5_fmt_dur_format (91 / 2) (by norm_num)).2.2.2.1⟩

/-! ## Claim C7 -/

lemma splitCols_ne_nil : ∀ l : List Char, splitCols l ≠ [] := by
  intro l
  cases l with
  | nil => simp [splitCols]
  | cons c rest =>
    unfold splitCols
    split
    · simp
    · split <;> simp

lemma splitCols_mem_subset :
    ∀ (l : List Char) (p : List Char), p ∈ splitCols l → ∀ c ∈ p, c ∈ l := by
  intro l
  induction l with
  | nil =>
    intro p hp c hc
    simp only [splitCols, List.mem_singleton] at hp
    subst hp
    simp at hc
  | cons a rest ih =>
    intro p hp c hc
    unfold splitCols at hp
    by_cases ha : a = ':'
    · rw [if_pos ha] at hp
      rcases List.mem_cons.mp hp with h | h
      · subst h; simp at hc
      · exact List.mem_cons_of_mem _ (ih p h c hc)
    · rw [if_neg ha] at hp
      rcases hsp : splitCols rest with _ | ⟨q, qs⟩
      · exact absurd hsp (splitCols_ne_nil rest)
      · rw [hsp] at hp
        rcases List.mem_cons.mp hp with h | h
        · subst h
          rcases List.mem_cons.mp hc with h' | h'
          · subst h'; exact List.mem_cons_self _ _
          · have hq : q ∈ splitCols rest := by rw [hsp]; exact List.mem_cons_self _ _
            exact List.mem_cons_of_mem _ (ih q hq c h')
        · have hp' : p ∈ splitCols rest := by rw [hsp]; exact List.mem_cons_of_mem _ h
          exact List.mem_cons_of_mem _ (ih p hp' c hc)

lemma mem_of_mem_dropWhileP {c : Char} {p : Char → Bool} :
    ∀ {l : List Char}, c ∈ List.dropWhile p l → c ∈ l := by
  intro l
  induction l with
  | nil => intro h; exact h
  | cons a t ih =>
    intro h
    rw [List.dropWhile_cons] at h
    split at h
    · exact List.mem_cons_of_mem a (ih h)
    · exact h

lemma mem_stripWs {c : Char} {l : List Char} (h : c ∈ stripWs l) : c ∈ l := by
  unfold stripWs at h
  rw [List.mem_reverse] at h
  have h2 : c ∈ (l.dropWhile Char.isWhitespace).reverse := mem_of_mem_dropWhileP h
  rw [List.mem_reverse] at h2
  exact mem_of_mem_dropWhileP h2

lemma parseIntPy_nonneg (l : List Char) (v : ℤ)
    (h : parseIntPy l = some v) (hm : '-' ∉ l) : 0 ≤ v := by
  unfold parseIntPy at h
  split at h
  · next rest heq =>
    exact absurd (mem_stripWs (heq ▸ List.mem_cons_self '-' rest)) hm
  · rcases Option.map_eq_some'.mp h with ⟨n, _, hv⟩
    subst hv
    exact Int.ofNat_nonneg n
  · rcases Option.map_eq_some'.mp h with ⟨n, _, hv⟩
    subst hv
    exact Int.ofNat_nonneg n

lemma parseExpVal_nonneg {r : List Char} {sc : ℚ}
    (h : parseExpVal r = some sc) : 0 ≤ sc := by
  unfold parseExpVal at h
  split at h <;>
    · rcases Option.map_eq_some'.mp h with ⟨ev, _, hv⟩
      subst hv
      positivity

lemma parseExpTail_num_nonneg {man : ℚ} (hman : 0 ≤ man) :
    ∀ {r : List Char} {f : PyFloat}, parseExpTail man r = some f →
      ∃ q, f = PyFloat.num q ∧ 0 ≤ q := by
  intro r f h
  unfold parseExpTail at h
  split at h
  · injection h with h
    exact ⟨man, h.symm, hman⟩
  · split at h
    · split at h
      · next sc hsc =>
        injection h with h
        exact ⟨man * sc, h.symm, mul_nonneg hman (parseExpVal_nonneg hsc)⟩
      · exact absurd h (by simp)
    · exact absurd h (by simp)

lemma parseAfterInt_num_nonneg (ip ic : ℕ) (r : List Char) {f : PyFloat}
    (h : parseAfterInt ip ic r = some f) : ∃ q, f = PyFloat.num q ∧ 0 ≤ q := by
  unfold parseAfterInt at h
  split at h
  · split at h
    · split at h
      · exact parseExpTail_num_nonneg (by positivity) h
      · exact absurd h (by simp)
    · split at h
      · exact absurd h (by simp)
      · exact parseExpTail_num_nonneg (by positivity) h
  · split at h
    · exact absurd h (by simp)
    · exact parseExpTail_num_nonneg (by positivity) h

lemma parseDecExp_num_nonneg {l : List Char} {f : PyFloat}
    (h : parseDecExp l = some f) : ∃ q, f = PyFloat.num q ∧ 0 ≤ q := by
  unfold parseDecExp at h
  split at h
  · split at h
    · exact parseAfterInt_num_nonneg _ _ _ h
    · exact absurd h (by simp)
  · exact parseAfterInt_num_nonneg _ _ _ h

lemma parseUnsignedFloat_not_neg {l : List Char} {f : PyFloat}
    (h : parseUnsignedFloat l = some f) : ¬ f.IsNeg := by
  unfold parseUnsignedFloat at h
  split_ifs at h
  · injection h with h
    subst h
    simp [PyFloat.IsNeg]
  · injection h with h
    subst h
    simp [PyFloat.IsNeg]
  · obtain ⟨q, rfl, hq⟩ := parseDecExp_num_nonneg h
    simp only [PyFloat.IsNeg, not_lt]
    exact hq

lemma parsePyFloat_not_neg {l : List Char} {f : PyFloat}
    (h : parsePyFloat l = some f) (hm : '-' ∉ l) : ¬ f.IsNeg := by
  unfold parsePyFloat at h
  split at h
  · next rest heq =>
    exact absurd (mem_stripWs (heq ▸ List.mem_cons_self '-' rest)) hm
  · exact parseUnsignedFloat_not_neg h
  · exact parseUnsignedFloat_not_neg h

lemma addIntPF_not_neg {q : ℚ} (hq : 0 ≤ q) {f : PyFloat} (hf : ¬ f.IsNeg) :
    ¬ (addIntPF q f).IsNeg := by
  cases f with
  | num r =>
    simp only [PyFloat.IsNeg, addIntPF, not_lt] at hf ⊢
    linarith
  | nan => simp [PyFloat.IsNeg, addIntPF]
  | inf b =>
    simp only [PyFloat.IsNeg, addIntPF] at hf ⊢
    exact hf

/-- C7 (counterexample): the duration parser accepts `"0:00:-1"` (Python
`int`/`float` accept signed components) and stores the negative duration
−1 second. -/
theorem C7_counterexample :
    parse_duration "0:00:-1" = some (PyFloat.num (-1)) ∧
      PyFloat.IsNeg (PyFloat.num (-1)) := by
  constructor
  · with_unfolding_all decide
  · show (-1 : ℚ) < 0
    norm_num

/-- C7 (amended): for every accepted duration string that contains no `'-'`
character — in particular every string in the TRX `"HH:MM:SS.fffffff"`
format, and the default `"00:00:00.0000000"` used when the attribute is
absent (which parses to 0) — the stored duration is never negative: it is a
non-negative number, positive infinity (`"inf"`), or NaN (`"nan"`, which is
not ≥ 0 but is not negative either). -/
theorem C7_duration_amended :
    (∀ (s : String) (d : PyFloat), parse_duration s = some d → '-' ∉ s.data →
      ¬ d.IsNeg) ∧
      parse_duration "00:00:00.0000000" = some (PyFloat.num 0) := by
  constructor
  · intro s d h hm
    unfold parse_duration at h
    split at h
    · next p0 p1 p2 rest heq =>
      split at h
      · next hv mv secv h0 h1 h2 =>
        injection h with h
        subst h
        have hsub := splitCols_mem_subset s.data
        have hm0 : p0 ∈ splitCols s.data := by rw [heq]; simp
        have hm1 : p1 ∈ splitCols s.data := by rw [heq]; simp
        have hm2 : p2 ∈ splitCols s.data := by rw [heq]; simp
        have hp0 : '-' ∉ p0 := fun hc => hm (hsub p0 hm0 '-' hc)
        have hp1 : '-' ∉ p1 := fun hc => hm (hsub p1 hm1 '-' hc)
        have hp2 : '-' ∉ p2 := fun hc => hm (hsub p2 hm2 '-' hc)
        have n0 := parseIntPy_nonneg p0 hv h0 hp0
        have n1 := parseIntPy_nonneg p1 mv h1 hp1
        have nsec := parsePyFloat_not_neg h2 hp2
        have q0 : (0 : ℚ) ≤ (hv : ℚ) := by exact_mod_cast n0
        have q1 : (0 : ℚ) ≤ (mv : ℚ) := by exact_mod_cast n1
        exact addIntPF_not_neg
          (add_nonneg (mul_nonneg q0 (by norm_num)) (mul_nonneg q1 (by norm_num))) nsec
      · exact absurd h (by simp)
    · exact absurd h (by simp)
  · with_unfolding_all decide

/-- C7 witness: the amended statement at the default duration string. -/
theorem C7_witness :
    parse_duration "00:00:00.0000000" = some (PyFloat.num 0) ∧
      ¬ PyFloat.IsNeg (PyFloat.num 0) :=
  ⟨C7_duration_amended.2,
   C7_duration_amended.1 "00:00:00.0000000" (PyFloat.num 0)
     C7_duration_amended.2 (by decide)⟩

/-! ## Claim C9 -/

/-- C9: with fewer than two positional arguments (i.e. `len(sys.argv) < 3`,
counting the program name), every supplied argument is ignored and both
built-in default paths are used; a single positional argument never overrides
the default input path. -/
theorem C9_default_paths (argv : List String) (h : argv.length < 3) :
    resolvePaths argv = (TRX_PATH_DEFAULT, HTML_PATH_DEFAULT) := by
  unfold resolvePaths
  rw [if_neg]
  omega

/-- C9 witness: exactly one positional argument (an input path) still yields
both defaults. -/
theorem C9_witness :
    resolvePaths ["generate_report.py", "results.trx"]
      = (TRX_PATH_DEFAULT, HTML_PATH_DEFAULT) :=
  C9_default_paths ["generate_report.py", "results.trx"] (by decide)

/-! ## Claim C4 -/

lemma mem_fsKeys (x : String) : ∀ l : List String, x ∈ fsKeys l ↔ x ∈ l := by
  intro l
  induction l with
  | nil => simp [fsKeys]
  | cons k rest ih =>
    by_cases hxk : x = k
    · subst hxk; simp [fsKeys]
    · simp [fsKeys, List.mem_filter, ih, hxk, bne_iff_ne]

lemma sortedClassKeys_filter_mem (ts : List Test) :
    (sortedClassKeys ts).filter (fun k => decide (k ∈ CLASS_ORDER))
      = CLASS_ORDER.filter (fun k => decide (k ∈ classKeys ts)) := by
  unfold sortedClassKeys
  rw [List.filter_append]
  have hA : (CLASS_ORDER.filter (fun k => decide (k ∈ classKeys ts))).filter
      (fun k => decide (k ∈ CLASS_ORDER))
      = CLASS_ORDER.filter (fun k => decide (k ∈ classKeys ts)) := by
    apply List.filter_eq_self.mpr
    intro a ha
    rcases List.mem_filter.mp ha with ⟨haCO, _⟩
    exact decide_eq_true haCO
  have hB : (((classKeys ts).filter (fun k => decide (k ∉ CLASS_ORDER))).filter
      (fun k => decide (k ∈ CLASS_ORDER))) = [] := by
    apply List.filter_eq_nil_iff.mpr
    intro a ha
    rcases List.mem_filter.mp ha with ⟨_, hnot⟩
    simp only [decide_eq_true_eq] at hnot ⊢
    exact hnot
  rw [hA, hB, List.append_nil]

lemma sortedClassKeys_filter_not_mem (ts : List Test) :
    (sortedClassKeys ts).filter (fun k => decide (k ∉ CLASS_ORDER))
      = (classKeys ts).filter (fun k => decide (k ∉ CLASS_ORDER)) := by
  unfold sortedClassKeys
  rw [List.filter_append]
  have hA : ((CLASS_ORDER.filter (fun k => decide (k ∈ classKeys ts))).filter
      (fun k => decide (k ∉ CLASS_ORDER))) = [] := by
    apply List.filter_eq_nil_iff.mpr
    intro a ha
    rcases List.mem_filter.mp ha with ⟨haCO, _⟩
    simp only [decide_eq_true_eq, not_not]
    exact haCO
  have hB : (((classKeys ts).filter (fun k => decide (k ∉ CLASS_ORDER))).filter
      (fun k => decide (k ∉ CLASS_ORDER)))
      = (classKeys ts).filter (fun k => decide (k ∉ CLASS_ORDER)) := by
    apply List.filter_eq_self.mpr
    intro a ha
    rcases List.mem_filter.mp ha with ⟨_, hnot⟩
    exact hnot
  rw [hA, hB, List.nil_append]

/-- C4: however the input entries are ordered, the rendered category order
(`sorted_classes`) consists of the preferred (`CLASS_ORDER`) categories
first — exactly in `CLASS_ORDER`'s relative order — followed by the
remaining categories in the order their first entries were encountered;
the preferred block depends only on which categories occur, not on input
order. -/
theorem C4_class_order (ts : List Test) :
    ((sortedClassKeys ts).filter (fun k => decide (k ∈ CLASS_ORDER))
        = CLASS_ORDER.filter (fun k => decide (k ∈ classKeys ts))) ∧
    ((sortedClassKeys ts).filter (fun k => decide (k ∈ CLASS_ORDER))).Sublist CLASS_ORDER ∧
    ((sortedClassKeys ts).filter (fun k => decide (k ∉ CLASS_ORDER))
        = (classKeys ts).filter (fun k => decide (k ∉ CLASS_ORDER))) ∧
    ((sortedClassKeys ts).filter (fun k => decide (k ∉ CLASS_ORDER))).Sublist (classKeys ts) ∧
    (sortedClassKeys ts
        = (sortedClassKeys ts).filter (fun k => decide (k ∈ CLASS_ORDER))
          ++ (sortedClassKeys ts).filter (fun k => decide (k ∉ CLASS_ORDER))) ∧
    (∀ ts₂ : List Test,
      (∀ k, k ∈ ts.map class_name ↔ k ∈ ts₂.map class_name) →
        (sortedClassKeys ts₂).filter (fun k => decide (k ∈ CLASS_ORDER))
          = (sortedClassKeys ts).filter (fun k => decide (k ∈ CLASS_ORDER))) := by
  refine ⟨sortedClassKeys_filter_mem ts, ?_, sortedClassKeys_filter_not_mem ts, ?_, ?_, ?_⟩
  · rw [sortedClassKeys_filter_mem ts]
    exact List.filter_sublist _
  · rw [sortedClassKeys_filter_not_mem ts]
    exact List.filter_sublist _
  · rw [sortedClassKeys_filter_mem ts, sortedClassKeys_filter_not_mem ts]
    rfl
  · intro ts₂ hiff
    rw [sortedClassKeys_filter_mem ts₂, sortedClassKeys_filter_mem ts]
    apply List.filter_congr
    intro k _
    have hk : k ∈ classKeys ts₂ ↔ k ∈ classKeys ts := by
      unfold classKeys
      rw [mem_fsKeys, mem_fsKeys]
      exact (hiff k).symm
    simp only [hk]

/-- C4 witness: the prefix decomposition and order-independence at a small
concrete input list. -/
theorem C4_witness :
    (sortedClassKeys [⟨"TestIT.ApiTests.Tests.CompanyTests.A", "Passed", 0, "", ""⟩]
        = (sortedClassKeys [⟨"TestIT.ApiTests.Tests.CompanyTests.A", "Passed", 0, "", ""⟩]).filter
            (fun k => decide (k ∈ CLASS_ORDER))
          ++ (sortedClassKeys [⟨"TestIT.ApiTests.Tests.CompanyTests.A", "Passed", 0, "", ""⟩]).filter
            (fun k => decide (k ∉ CLASS_ORDER))) ∧
    ((sortedClassKeys [⟨"TestIT.ApiTests.Tests.CompanyTests.A", "Passed", 0, "", ""⟩]).filter
        (fun k => decide (k ∈ CLASS_ORDER))
      = (sortedClassKeys [⟨"TestIT.ApiTests.Tests.CompanyTests.A", "Passed", 0, "", ""⟩]).filter
        (fun k => decide (k ∈ CLASS_ORDER))) :=
  ⟨(C4_class_order [⟨"TestIT.ApiTests.Tests.CompanyTests.A", "Passed", 0, "", ""⟩]).2.2.2.2.1,
   (C4_class_order [⟨"TestIT.ApiTests.Tests.CompanyTests.A", "Passed", 0, "", ""⟩]).2.2.2.2.2
     [⟨"TestIT.ApiTests.Tests.CompanyTests.A", "Passed", 0, "", ""⟩] (fun _ => Iff.rfl)⟩

/-! ## Claims C6 and C10 -/

lemma isDigit_ne_dot {c : Char} (h : c.isDigit = true) : c ≠ '.' := by
  intro he
  subst he
  exact absurd h (by decide)

lemma chain'_fixTz {l : List Char} (h : List.Chain' NoDotDigit l) :
    List.Chain' NoDotDigit (fixTz l) := by
  unfold fixTz
  split
  · next d2 d1 d0 dm sgn rest heq =>
    split
    · next hg =>
      simp only [Bool.and_eq_true, Bool.or_eq_true, beq_iff_eq] at hg
      obtain ⟨⟨⟨⟨_, hd2⟩, hd1⟩, hd0⟩, hdm⟩ := hg
      have hl : l = (d2 :: d1 :: ':' :: d0 :: dm :: sgn :: rest).reverse := by
        rw [← heq, List.reverse_reverse]
      rw [hl, List.chain'_reverse] at h
      have hgoal : rest.reverse ++ [sgn, dm, d0, d1, d2]
          = (d2 :: d1 :: d0 :: dm :: sgn :: rest).reverse := by
        simp
      rw [hgoal, List.chain'_reverse]
      simp only [List.chain'_cons] at h ⊢
      exact ⟨h.1, Or.inl (isDigit_ne_dot hd0), h.2.2.2.1, h.2.2.2.2⟩
    · exact h
  · exact h

lemma chain'_no_dot_digit : ∀ (pre : List Char) {f : Char} {t : List Char},
    List.Chain' NoDotDigit (pre ++ '.' :: f :: t) → f.isDigit = false := by
  intro pre
  induction pre with
  | nil =>
    intro f t h
    rw [List.nil_append, List.chain'_cons] at h
    rcases h.1 with h' | h'
    · exact absurd rfl h'
    · exact h'
  | cons a pre' ih =>
    intro f t h
    exact ih (List.Chain'.tail h)

lemma matchAfterDot_shape {post r : List Char} (h : matchAfterDot post = some r) :
    ∃ f t, post = f :: t ∧ f.isDigit = true := by
  unfold matchAfterDot at h
  split at h
  · next f1 f2 f3 f4 f5 f6 rest =>
    split at h
    · next hg =>
      simp only [Bool.and_eq_true] at hg
      exact ⟨f1, _, rfl, hg.1.1.1.1.1⟩
    · exact absurd h (by simp)
  · exact absurd h (by simp)

lemma findTrunc_eq_none {l : List Char} (h : List.Chain' NoDotDigit l) :
    findTrunc l = none := by
  induction l with
  | nil => rfl
  | cons c rest ih =>
    unfold findTrunc
    rw [ih h.tail]
    by_cases hc : c = '.'
    · rw [if_pos hc]
      rcases hmad : matchAfterDot rest with _ | r
      · rfl
      · exfalso
        obtain ⟨f, t, hshape, hdig⟩ := matchAfterDot_shape hmad
        subst hc
        rw [hshape] at h
        have hfd := chain'_no_dot_digit [] h
        rw [hdig] at hfd
        exact Bool.noConfusion hfd
    · rw [if_neg hc]

lemma truncFrac_id {l : List Char} (h : List.Chain' NoDotDigit l) :
    truncFrac l = l := by
  cases l with
  | nil => rfl
  | cons c rest =>
    have ht : List.Chain' NoDotDigit rest := List.Chain'.tail h
    simp only [truncFrac]
    rw [findTrunc_eq_none ht]

lemma parseFrac_shape {l : List Char} {v : ℕ × List Char}
    (h : parseFrac l = some v) : ∃ f t, l = f :: t ∧ f.isDigit = true := by
  unfold parseFrac at h
  split at h
  · next c rest =>
    split at h
    · next d hd =>
      refine ⟨c, rest, rfl, ?_⟩
      unfold dig at hd
      by_cases hcd : c.isDigit
      · exact hcd
      · rw [if_neg hcd] at hd
        exact absurd hd (by simp)
    · exact absurd h (by simp)
  · exact absurd h (by simp)

lemma strptimeModel_none {l : List Char} (h : List.Chain' NoDotDigit l) :
    strptimeModel l = none := by
  unfold strptimeModel
  split
  · next y1 y2c y3 y4 o1 o2 d1 d2 h1 h2 i1 i2 s1 s2 rest =>
    rcases hpf : parseFrac rest with _ | ⟨frac, rest2⟩
    · rfl
    · exfalso
      obtain ⟨f, t, hshape, hdig⟩ := parseFrac_shape hpf
      rw [hshape] at h
      have hfd := chain'_no_dot_digit
        [y1, y2c, y3, y4, '-', o1, o2, '-', d1, d2, 'T', h1, h2, ':', i1, i2, ':', s1, s2] h
      rw [hdig] at hfd
      exact Bool.noConfusion hfd
  · rfl

lemma noDotDigitB_iff : ∀ l : List Char, noDotDigitB l = true ↔ List.Chain' NoDotDigit l := by
  intro l
  induction l with
  | nil => simp [noDotDigitB]
  | cons a rest ih =>
    cases rest with
    | nil => simp [noDotDigitB]
    | cons b rest' =>
      rw [List.chain'_cons]
      simp only [noDotDigitB, Bool.and_eq_true, decide_eq_true_eq]
      exact and_congr_right (fun _ => ih)

/-- C10: a timestamp string with no fractional-seconds part — no `'.'`
immediately followed by a digit anywhere — is rejected by the timestamp
parser, even when it is otherwise a valid ISO-8601 datetime with offset:
sub-second precision is mandatory at the parsing interface. -/
theorem C10_no_fraction_required (s : String)
    (h : noDotDigitB s.data = true) :
    parse_iso_datetime s = none := by
  have hc := (noDotDigitB_iff s.data).mp h
  unfold parse_iso_datetime
  have h1 := chain'_fixTz hc
  rw [truncFrac_id h1]
  exact strptimeModel_none h1

/-- C10 witness: the otherwise-valid `"2024-01-15T10:30:00+0200"` is
rejected. -/
theorem C10_witness :
    noDotDigitB ("2024-01-15T10:30:00+0200").data = true ∧
      parse_iso_datetime "2024-01-15T10:30:00+0200" = none :=
  ⟨by decide, C10_no_fraction_required "2024-01-15T10:30:00+0200" (by decide)⟩

/-- C6: the timestamp parser normalizes the offset format (with or without
colon) and truncates fractional seconds beyond six digits, so
`"2024-01-15T10:30:00.1234567+02:00"` and
`"2024-01-15T10:30:00.123456+0200"` parse to the same absolute instant
(and both parse successfully). -/
theorem C6_timestamp_normalization :
    parse_iso_datetime "2024-01-15T10:30:00.1234567+02:00"
        = parse_iso_datetime "2024-01-15T10:30:00.123456+0200" ∧
      (parse_iso_datetime "2024-01-15T10:30:00.1234567+02:00").isSome = true := by
  constructor
  · decide
  · decide

/-! ## Claim C8 -/

lemma sdata_append (s t : String) : (s ++ t).data = s.data ++ t.data := rfl

lemma data_joinStr : ∀ l : List String, (joinStr l).data = (l.map String.data).flatten := by
  intro l
  induction l with
  | nil => rfl
  | cons s l ih =>
    simp only [joinStr, List.foldr_cons, List.map_cons, List.flatten_cons]
    rw [sdata_append]
    simp only [joinStr] at ih
    rw [ih]

lemma all_ne_lt {l : List Char} (hl : l.all (fun x => x != '<') = true) :
    ∀ d ∈ l, d ≠ '<' :=
  fun d hd => bne_iff_ne.mp (List.all_eq_true.mp hl d hd)

lemma escapeChar_ne_lt (c : Char) : ∀ d ∈ escapeChar c, d ≠ '<' := by
  intro d hd
  unfold escapeChar at hd
  split_ifs at hd with h1 h2 h3 h4 h5
  · exact all_ne_lt (by decide) d hd
  · exact all_ne_lt (by decide) d hd
  · exact all_ne_lt (by decide) d hd
  · exact all_ne_lt (by decide) d hd
  · exact all_ne_lt (by decide) d hd
  · have hdc := List.mem_singleton.mp hd
    subst hdc
    exact h2

lemma escapeHtml_ne_lt (s : String) : ∀ d ∈ (escapeHtml s).data, d ≠ '<' := by
  intro d hd
  have hd' : d ∈ escapeHtmlL s.data := hd
  unfold escapeHtmlL at hd'
  rw [List.mem_flatten] at hd'
  obtain ⟨piece, hpiece, hdp⟩ := hd'
  rw [List.mem_map] at hpiece
  obtain ⟨c, _, rfl⟩ := hpiece
  exact escapeChar_ne_lt c d hdp

lemma digitChar_ne_lt {d : Nat} (hd : d < 10) : Nat.digitChar d ≠ '<' := by
  interval_cases d <;> decide

lemma natDigsGo_ne_lt : ∀ (fuel n : Nat) (acc : List Char),
    (∀ c ∈ acc, c ≠ '<') → ∀ c ∈ natDigsGo fuel n acc, c ≠ '<' := by
  intro fuel
  induction fuel with
  | zero => intro n acc hacc c hc; exact hacc c hc
  | succ f ih =>
    intro n acc hacc c hc
    simp only [natDigsGo] at hc
    have haccd : ∀ c' ∈ Nat.digitChar (n % 10) :: acc, c' ≠ '<' := by
      intro c' hc'
      rcases List.mem_cons.mp hc' with h | h
      · subst h; exact digitChar_ne_lt (Nat.mod_lt _ (by norm_num))
      · exact hacc c' h
    split at hc
    · exact haccd c hc
    · exact ih (n / 10) _ haccd c hc

lemma natReprS_ne_lt (n : Nat) : ∀ c ∈ (natReprS n).data, c ≠ '<' := by
  intro c hc
  exact natDigsGo_ne_lt (n + 1) n [] (by simp) c hc

lemma padNat_ne_lt (w n : Nat) : ∀ c ∈ (padNat w n).data, c ≠ '<' := by
  intro c hc
  have hdata : (padNat w n).data
      = List.replicate (w - (natReprS n).length) '0' ++ (natReprS n).data := rfl
  rw [hdata] at hc
  rcases List.mem_append.mp hc with h | h
  · have h0 := List.eq_of_mem_replicate h
    subst h0
    decide
  · exact natReprS_ne_lt n c h

lemma fmtRat2_ne_lt (q : ℚ) (w : Nat) : ∀ c ∈ (fmtRat2 q w).data, c ≠ '<' := by
  intro c hc
  simp only [fmtRat2] at hc
  split at hc
  · rw [sdata_append, sdata_append, sdata_append] at hc
    simp only [List.mem_append] at hc
    rcases hc with h | ((h | h) | h)
    · exact all_ne_lt (by decide) c h
    · exact padNat_ne_lt _ _ c h
    · exact all_ne_lt (by decide) c h
    · exact padNat_ne_lt _ _ c h
  · rw [sdata_append, sdata_append] at hc
    simp only [List.mem_append] at hc
    rcases hc with (h | h) | h
    · exact padNat_ne_lt _ _ c h
    · exact all_ne_lt (by decide) c h
    · exact padNat_ne_lt _ _ c h

lemma fmt_dur_ne_lt (q : ℚ) : ∀ c ∈ (fmt_dur q).data, c ≠ '<' := by
  intro c hc
  simp only [fmt_dur] at hc
  split at hc
  · rw [sdata_append, sdata_append, sdata_append, sdata_append, sdata_append] at hc
    simp only [List.mem_append] at hc
    rcases hc with ((((h | h) | h) | h) | h) | h
    · exact natReprS_ne_lt _ c h
    · exact all_ne_lt (by decide) c h
    · exact padNat_ne_lt _ _ c h
    · exact all_ne_lt (by decide) c h
    · exact fmtRat2_ne_lt _ _ c h
    · exact all_ne_lt (by decide) c h
  · split at hc
    · rw [sdata_append, sdata_append, sdata_append] at hc
      simp only [List.mem_append] at hc
      rcases hc with ((h | h) | h) | h
      · exact natReprS_ne_lt _ c h
      · exact all_ne_lt (by decide) c h
      · exact fmtRat2_ne_lt _ _ c h
      · exact all_ne_lt (by decide) c h
    · rw [sdata_append] at hc
      rcases List.mem_append.mp hc with h | h
      · exact fmtRat2_ne_lt _ _ c h
      · exact all_ne_lt (by decide) c h

lemma isPre_append : ∀ {a : List Char} (n : List Char) {b : List Char},
    isPre n (a ++ b) = true → isPre n a = true ∨ isPre a n = true := by
  intro a
  induction a with
  | nil =>
    intro n b _
    right
    rfl
  | cons x as ih =>
    intro n b h
    cases n with
    | nil =>
      left
      rfl
    | cons y ns =>
      simp only [List.cons_append, isPre, Bool.and_eq_true, beq_iff_eq] at h
      rcases ih ns h.2 with h' | h'
      · left
        simp only [isPre, Bool.and_eq_true, beq_iff_eq]
        exact ⟨h.1, h'⟩
      · right
        simp only [isPre, Bool.and_eq_true, beq_iff_eq]
        exact ⟨h.1.symm, h'⟩

lemma occurs_append : ∀ (a b : List Char) {n : List Char},
    occurs n (a ++ b) = true → scanFor n a = true ∨ occurs n b = true := by
  intro a
  induction a with
  | nil =>
    intro b n h
    right
    exact h
  | cons c as ih =>
    intro b n h
    simp only [List.cons_append, occurs, Bool.or_eq_true] at h
    rcases h with h | h
    · have h' : isPre n ((c :: as) ++ b) = true := h
      rcases isPre_append n h' with h'' | h''
      · left
        simp only [scanFor, Bool.or_eq_true]
        exact Or.inl (Or.inr h'')
      · left
        simp only [scanFor, Bool.or_eq_true]
        exact Or.inl (Or.inl h'')
    · rcases ih b h with h' | h'
      · left
        simp only [scanFor, Bool.or_eq_true]
        exact Or.inr h'
      · right
        exact h'

lemma occurs_flatten {n : List Char} (hn : isPre n [] = false) :
    ∀ ps : List (List Char), (∀ p ∈ ps, scanFor n p = false) →
      occurs n ps.flatten = false := by
  intro ps
  induction ps with
  | nil =>
    intro _
    exact hn
  | cons p ps ih =>
    intro hall
    cases hb : occurs n ((p :: ps).flatten) with
    | false => rfl
    | true =>
      exfalso
      have hb' : occurs n (p ++ ps.flatten) = true := by
        rw [List.flatten_cons] at hb
        exact hb
      rcases occurs_append p ps.flatten hb' with h' | h'
      · have hfp := hall p (List.mem_cons_self p ps)
        rw [hfp] at h'
        exact Bool.noConfusion h'
      · have hih := ih (fun q hq => hall q (List.mem_cons_of_mem p hq))
        rw [hih] at h'
        exact Bool.noConfusion h'

lemma scanFor_false_of_forall_ne {c0 : Char} {ns : List Char} :
    ∀ {p : List Char}, (∀ c ∈ p, c ≠ c0) → scanFor (c0 :: ns) p = false := by
  intro p
  induction p with
  | nil =>
    intro _
    rfl
  | cons c t ih =>
    intro h
    have h1 : isPre (c :: t) (c0 :: ns) = false := by
      simp only [isPre]
      have hcc : (c == c0) = false := by
        rw [beq_eq_false_iff_ne]
        exact h c (List.mem_cons_self c t)
      rw [hcc, Bool.false_and]
    have h2 : isPre (c0 :: ns) (c :: t) = false := by
      simp only [isPre]
      have hcc : (c0 == c) = false := by
        rw [beq_eq_false_iff_ne]
        exact Ne.symm (h c (List.mem_cons_self c t))
      rw [hcc, Bool.false_and]
    have h3 := ih (fun c' hc' => h c' (List.mem_cons_of_mem c hc'))
    simp [scanFor, h1, h2, h3]

lemma safe_of_ne_lt {p : List Char} (h : ∀ c ∈ p, c ≠ '<') :
    scanFor scriptNeedle p = false := by
  have hneedle : scriptNeedle = '<' :: "script>".data := rfl
  rw [hneedle]
  exact scanFor_false_of_forall_ne h

lemma safe_escape (x : String) : scanFor scriptNeedle (escapeHtml x).data = false :=
  safe_of_ne_lt (escapeHtml_ne_lt x)

lemma safe_natReprS (n : Nat) : scanFor scriptNeedle (natReprS n).data = false :=
  safe_of_ne_lt (natReprS_ne_lt n)

lemma safe_fmt_dur (q : ℚ) : scanFor scriptNeedle (fmt_dur q).data = false :=
  safe_of_ne_lt (fmt_dur_ne_lt q)

set_option maxHeartbeats 2000000 in
lemma safe_class_desc (n : String) :
    scanFor scriptNeedle (CLASS_DESCRIPTIONS n).data = false := by
  unfold CLASS_DESCRIPTIONS
  cases hf : CLASS_DESCRIPTIONS_LIST.find? (fun kv => kv.1 == n) with
  | none => decide
  | some kv =>
    have hmem := List.mem_of_find?_eq_some hf
    have hall : CLASS_DESCRIPTIONS_LIST.all
        (fun kv => scanFor scriptNeedle kv.2.data == false) = true := by decide
    have hkv := List.all_eq_true.mp hall kv hmem
    have h2 : scanFor scriptNeedle kv.2.data = false := by simpa using hkv
    exact h2

lemma mem_ite_list {α : Type} {c : Prop} [Decidable c] {l1 l2 : List α} {s : α}
    (h : s ∈ (if c then l1 else l2)) : s ∈ l1 ∨ s ∈ l2 := by
  split at h
  · exact Or.inl h
  · exact Or.inr h

set_option maxHeartbeats 2000000 in
lemma rowChunks_safe (ci : Nat) (p : Nat × Test) :
    ∀ s ∈ rowChunks ci p, scanFor scriptNeedle s.data = false := by
  intro s hs
  unfold rowChunks at hs
  simp only [List.mem_append] at hs
  rcases hs with ((h | h) | h) | h
  · simp only [List.mem_cons, List.not_mem_nil, or_false] at h
    rcases h with rfl | rfl | rfl | rfl | rfl | rfl | rfl
    · decide
    · exact safe_natReprS _
    · decide
    · exact safe_natReprS _
    · decide
    · exact safe_escape _
    · decide
  · rcases mem_ite_list h with h | h
    · simp only [List.mem_cons, List.not_mem_nil, or_false] at h
      rcases h with rfl | rfl | rfl
      · decide
      · exact safe_escape _
      · decide
    · exact absurd h (List.not_mem_nil s)
  · simp only [List.mem_cons, List.not_mem_nil, or_false] at h
    rcases h with rfl | rfl | rfl | rfl | rfl | rfl | rfl
    · decide
    · split <;> decide
    · decide
    · exact safe_escape _
    · decide
    · exact safe_fmt_dur _
    · decide
  · rcases mem_ite_list h with h | h
    · simp only [List.mem_cons, List.not_mem_nil, or_false] at h
      rcases h with rfl | rfl | rfl
      · decide
      · exact safe_escape _
      · decide
    · exact absurd h (List.not_mem_nil s)

set_option maxHeartbeats 2000000 in
lemma classTableChunks_safe (ci : Nat) (cn : String) (ts : List Test) :
    ∀ s ∈ classTableChunks ci cn ts, scanFor scriptNeedle s.data = false := by
  intro s hs
  unfold classTableChunks at hs
  simp only [List.mem_append] at hs
  rcases hs with (((h | h) | h) | h) | h
  · simp only [List.mem_cons, List.not_mem_nil, or_false] at h
    rcases h with rfl | rfl | rfl | rfl | rfl | rfl | rfl | rfl | rfl | rfl | rfl | rfl | rfl | rfl | rfl
    · decide
    · decide
    · decide
    · exact safe_natReprS _
    · decide
    · exact safe_escape _
    · decide
    · decide
    · decide
    · exact safe_natReprS _
    · decide
    · exact safe_natReprS _
    · decide
    · exact safe_fmt_dur _
    · decide
  · rcases mem_ite_list h with h | h
    · simp only [List.mem_cons, List.not_mem_nil, or_false] at h
      rcases h with rfl | rfl | rfl
      · decide
      · exact safe_class_desc _
      · decide
    · exact absurd h (List.not_mem_nil s)
  · simp only [List.mem_cons, List.not_mem_nil, or_false] at h
    subst h
    decide
  · rw [List.mem_flatten] at h
    obtain ⟨chunkl, hl, hs'⟩ := h
    rw [List.mem_map] at hl
    obtain ⟨pr, _, rfl⟩ := hl
    exact rowChunks_safe ci pr s hs'
  · simp only [List.mem_cons, List.not_mem_nil, or_false] at h
    subst h
    decide

lemma isPre_prefixL : ∀ {x y n : List Char}, isPre (x ++ y) n = true → isPre x n = true := by
  intro x
  induction x with
  | nil =>
    intro y n _
    rfl
  | cons a as ih =>
    intro y n h
    cases n with
    | nil => exact Bool.noConfusion h
    | cons b bs =>
      simp only [List.cons_append, isPre, Bool.and_eq_true, beq_iff_eq] at h ⊢
      exact ⟨h.1, ih h.2⟩

lemma scanFor_append : ∀ (a b : List Char) {n : List Char},
    scanFor n (a ++ b) = true → scanFor n a = true ∨ scanFor n b = true := by
  intro a
  induction a with
  | nil =>
    intro b n h
    right
    exact h
  | cons c as ih =>
    intro b n h
    simp only [List.cons_append, scanFor, Bool.or_eq_true] at h
    rcases h with (h | h) | h
    · left
      have h' : isPre ((c :: as) ++ b) n = true := h
      have h'' := isPre_prefixL h'
      simp only [scanFor, Bool.or_eq_true]
      exact Or.inl (Or.inl h'')
    · left
      have h' : isPre n ((c :: as) ++ b) = true := h
      rcases isPre_append n h' with h'' | h''
      · simp only [scanFor, Bool.or_eq_true]
        exact Or.inl (Or.inr h'')
      · simp only [scanFor, Bool.or_eq_true]
        exact Or.inl (Or.inl h'')
    · rcases ih b h with h' | h'
      · left
        simp only [scanFor, Bool.or_eq_true]
        exact Or.inr h'
      · right
        exact h'

lemma scanFor_flatten {n : List Char} :
    ∀ ps : List (List Char), (∀ p ∈ ps, scanFor n p = false) →
      scanFor n ps.flatten = false := by
  intro ps
  induction ps with
  | nil =>
    intro _
    rfl
  | cons p ps ih =>
    intro hall
    cases hb : scanFor n ((p :: ps).flatten) with
    | false => rfl
    | true =>
      exfalso
      have hb' : scanFor n (p ++ ps.flatten) = true := by
        rw [List.flatten_cons] at hb
        exact hb
      rcases scanFor_append p ps.flatten hb' with h' | h'
      · have hfp := hall p (List.mem_cons_self p ps)
        rw [hfp] at h'
        exact Bool.noConfusion h'
      · have hih := ih (fun q hq => hall q (List.mem_cons_of_mem p hq))
        rw [hih] at h'
        exact Bool.noConfusion h'

lemma scanFor_joinStr {n : List Char} {l : List String}
    (h : ∀ s ∈ l, scanFor n s.data = false) :
    scanFor n (joinStr l).data = false := by
  rw [data_joinStr]
  apply scanFor_flatten
  intro p hp
  rw [List.mem_map] at hp
  obtain ⟨s, hs, rfl⟩ := hp
  exact h s hs

lemma safe_class_table (ci : Nat) (cn : String) (ts : List Test) :
    scanFor scriptNeedle (class_table ci cn ts).data = false := by
  unfold class_table
  exact scanFor_joinStr (classTableChunks_safe ci cn ts)

lemma intReprS_ne_lt (i : ℤ) : ∀ c ∈ (intReprS i).data, c ≠ '<' := by
  intro c hc
  unfold intReprS at hc
  split at hc
  · rw [sdata_append] at hc
    rcases List.mem_append.mp hc with h | h
    · exact all_ne_lt (by decide) c h
    · exact natReprS_ne_lt _ c h
  · exact natReprS_ne_lt _ c hc

lemma safe_intReprS (i : ℤ) : scanFor scriptNeedle (intReprS i).data = false :=
  safe_of_ne_lt (intReprS_ne_lt i)

lemma fmtRat0_ne_lt (q : ℚ) : ∀ c ∈ (fmtRat0 q).data, c ≠ '<' := by
  intro c hc
  simp only [fmtRat0] at hc
  split at hc
  · rw [sdata_append] at hc
    rcases List.mem_append.mp hc with h | h
    · exact all_ne_lt (by decide) c h
    · exact natReprS_ne_lt _ c h
  · exact natReprS_ne_lt _ c hc

lemma safe_fmtRat0 (q : ℚ) : scanFor scriptNeedle (fmtRat0 q).data = false :=
  safe_of_ne_lt (fmtRat0_ne_lt q)

lemma fmtTimeHdr_ne_lt (t : TimeSix) : ∀ c ∈ (fmtTimeHdr t).data, c ≠ '<' := by
  intro c hc
  simp only [fmtTimeHdr, sdata_append, List.mem_append] at hc
  rcases hc with (((((((((h | h) | h) | h) | h) | h) | h) | h) | h) | h) | h
  · exact padNat_ne_lt _ _ c h
  · exact all_ne_lt (by decide) c h
  · exact padNat_ne_lt _ _ c h
  · exact all_ne_lt (by decide) c h
  · exact padNat_ne_lt _ _ c h
  · exact all_ne_lt (by decide) c h
  · exact padNat_ne_lt _ _ c h
  · exact all_ne_lt (by decide) c h
  · exact padNat_ne_lt _ _ c h
  · exact all_ne_lt (by decide) c h
  · exact padNat_ne_lt _ _ c h

lemma safe_fmtTimeHdr (t : TimeSix) :
    scanFor scriptNeedle (fmtTimeHdr t).data = false :=
  safe_of_ne_lt (fmtTimeHdr_ne_lt t)

lemma safe_summary_bg (failed errors : ℤ) :
    scanFor scriptNeedle (summary_bg failed errors).data = false := by
  unfold summary_bg
  split <;> decide

lemma safe_across (n : Nat) :
    scanFor scriptNeedle ("across " ++ natReprS n ++ " tests").data = false := by
  apply safe_of_ne_lt
  intro c hc
  simp only [sdata_append, List.mem_append] at hc
  rcases hc with (h | h) | h
  · exact all_ne_lt (by decide) c h
  · exact natReprS_ne_lt _ c h
  · exact all_ne_lt (by decide) c h

set_option maxHeartbeats 2000000 in
lemma stat_card_safe (label value sub accent : String)
    (h1 : scanFor scriptNeedle label.data = false)
    (h2 : scanFor scriptNeedle value.data = false)
    (h3 : scanFor scriptNeedle sub.data = false)
    (h4 : scanFor scriptNeedle accent.data = false) :
    scanFor scriptNeedle (stat_card label value sub accent).data = false := by
  unfold stat_card
  apply scanFor_joinStr
  intro s hmem
  unfold statCardChunks at hmem
  simp only [List.mem_append] at hmem
  rcases hmem with (h | h) | h
  · simp only [List.mem_cons, List.not_mem_nil, or_false] at h
    rcases h with rfl | rfl | rfl | rfl | rfl | rfl | rfl | rfl | rfl | rfl | rfl | rfl | rfl
    · decide
    · decide
    · decide
    · decide
    · decide
    · decide
    · decide
    · exact h1
    · decide
    · exact h4
    · decide
    · exact h2
    · decide
  · rcases mem_ite_list h with h | h
    · simp only [List.mem_cons, List.not_mem_nil, or_false] at h
      rcases h with rfl | rfl | rfl | rfl | rfl
      · decide
      · decide
      · decide
      · exact h3
      · decide
    · exact absurd h (List.not_mem_nil s)
  · simp only [List.mem_cons, List.not_mem_nil, or_false] at h
    subst h
    decide

set_option maxHeartbeats 4000000 in
lemma htmlDocChunks_safe (run_start run_finish : TimeSix) (run_duration_sec : ℚ)
    (total_tests passed failed errors : ℤ) (tests : List Test) :
    ∀ s ∈ htmlDocChunks run_start run_finish run_duration_sec
        total_tests passed failed errors tests,
      scanFor scriptNeedle s.data = false := by
  intro s hmem
  unfold htmlDocChunks at hmem
  simp only [List.mem_cons, List.not_mem_nil, or_false] at hmem
  rcases hmem with rfl | rfl | rfl | rfl | rfl | rfl | rfl | rfl | rfl | rfl | rfl | rfl | rfl | rfl | rfl | rfl | rfl | rfl | rfl | rfl | rfl | rfl | rfl | rfl | rfl | rfl | rfl | rfl | rfl | rfl | rfl | rfl | rfl | rfl | rfl | rfl | rfl | rfl | rfl
  · decide
  · decide
  · decide
  · decide
  · decide
  · decide
  · decide
  · exact safe_fmtTimeHdr _
  · decide
  · exact safe_fmtTimeHdr _
  · decide
  · exact safe_summary_bg _ _
  · decide
  · exact safe_intReprS _
  · decide
  · exact safe_intReprS _
  · decide
  · exact safe_fmtRat0 _
  · decide
  · exact safe_fmt_dur _
  · decide
  · exact safe_fmt_dur _
  · decide
  · decide
  · decide
  · apply scanFor_joinStr
    intro p hp
    rw [List.mem_map] at hp
    obtain ⟨pr, _, rfl⟩ := hp
    exact safe_class_table pr.1 pr.2 _
  · decide
  · decide
  · decide
  · apply stat_card_safe
    · decide
    · cases hm : maxByDur tests with
      | none => decide
      | some t => exact safe_fmt_dur _
    · cases hm : maxByDur tests with
      | none => decide
      | some t => exact safe_escape _
    · decide
  · decide
  · apply stat_card_safe
    · decide
    · cases hm : minByDur tests with
      | none => decide
      | some t => exact safe_fmt_dur _
    · cases hm : minByDur tests with
      | none => decide
      | some t => exact safe_escape _
    · decide
  · decide
  · apply stat_card_safe
    · decide
    · exact safe_fmt_dur _
    · exact safe_across _
    · decide
  · decide
  · decide
  · decide
  · decide
  · decide

/-- C8: for every input document — arbitrary run times, counters and test
records with arbitrary names, outcomes, descriptions and captured output —
the whole rendered HTML document never contains the markup payload
`"<script>"`: every test-derived string (method names in the per-class rows
and in the slowest/fastest stat cards, outcomes, descriptions, captured
output) passes through `html.escape`, which leaves no `<` in its output;
the numeric, duration and time formatters emit no `<`; and no static
template text forms the payload.  In particular a test name containing
`<script>` never appears unescaped in the output document. -/
theorem C8_no_script_in_document (run_start run_finish : TimeSix)
    (run_duration_sec : ℚ) (total_tests passed failed errors : ℤ)
    (tests : List Test) :
    containsSub "<script>" (html_doc run_start run_finish run_duration_sec
      total_tests passed failed errors tests) = false := by
  unfold containsSub html_doc
  rw [data_joinStr]
  have hn : isPre "<script>".data [] = false := rfl
  apply occurs_flatten hn
  intro p hp
  rw [List.mem_map] at hp
  obtain ⟨s, hs, rfl⟩ := hp
  exact htmlDocChunks_safe run_start run_finish run_duration_sec
    total_tests passed failed errors tests s hs

end TrxReport
